import Mathlib

/-!
Verification development for the PS Telecom inventory-tracking application.

The TypeScript sources are shallowly embedded:
* JavaScript strings are modelled as `List Char` (abbreviated `Str`);
* JavaScript numbers are idealized as exact integers (`Int`), which matches the
  spec's "modulo floating-point formatting" reading of the numeric fields;
* nondeterministic identifier generation (`Math.random`, `crypto.randomUUID`)
  is modelled by explicit generator parameters;
* wall-clock time (`Date.now()`) is an explicit `now : Int` parameter;
* the success path of the asynchronous persistence calls is modelled as the
  pure state transformation the component applies.
-/

set_option linter.unusedVariables false

/-- Strings of the embedded program: JavaScript strings as lists of characters. -/
abbrev Str := List Char

/-- The double-quote character, written via its code point. -/
def quoteChar : Char := Char.ofNat 34

/-- ASCII whitespace test used by the embedded `String.prototype.trim`. -/
def isWS (c : Char) : Bool := c.toNat = 32 || c.toNat = 9 || c.toNat = 10 || c.toNat = 13

/-- Decimal digit test, `'0'` through `'9'` by code point. -/
def isDigitC (c : Char) : Bool := 48 ≤ c.toNat && c.toNat ≤ 57

/-- The decimal digit character for `n % 10`. -/
def digitChar : Nat → Char
  | 0 => '0' | 1 => '1' | 2 => '2' | 3 => '3' | 4 => '4'
  | 5 => '5' | 6 => '6' | 7 => '7' | 8 => '8' | _ => '9'

/-- Numeric value of a digit character. -/
def digitVal (c : Char) : Nat := c.toNat - 48

/-- Fuel-driven decimal printer for naturals (fuel keeps it structurally
recursive so the kernel can evaluate it). -/
def natDigitsAux : Nat → Nat → List Char
  | 0, _ => []
  | fuel + 1, n => if n < 10 then [digitChar n] else natDigitsAux fuel (n / 10) ++ [digitChar (n % 10)]

/-- Decimal digit string of a natural number. -/
def natToDigits (n : Nat) : List Char := natDigitsAux (n + 1) n

/-- Decimal rendering of an integer, as JavaScript renders integral numbers. -/
def intToStr (i : Int) : Str :=
  if i < 0 then '-' :: natToDigits i.natAbs else natToDigits i.natAbs

/-- Value of a list of decimal digit characters (most significant first). -/
def digitsToNat (cs : List Char) : Nat := cs.foldl (fun acc c => acc * 10 + digitVal c) 0

/-- Longest digit prefix, as consumed by `parseInt` / `parseFloat`. -/
def takeDigits (cs : Str) : Str := cs.takeWhile isDigitC

/-- Reads the leading decimal numeral of a character list, if any. -/
def readNat? (cs : Str) : Option Nat :=
  let ds := takeDigits cs
  if ds = [] then none else some (digitsToNat ds)

/-- JavaScript `String.prototype.trim` on the `List Char` model. -/
def trimChars (cs : Str) : Str := ((cs.dropWhile isWS).reverse.dropWhile isWS).reverse

/-- JavaScript `parseInt(s)` (decimal): skip whitespace, optional sign, longest
digit prefix; `none` models `NaN`.  (The `0x`-prefixed hexadecimal form of
`parseInt` is irrelevant to the CSV columns and is not modelled.) -/
def jsParseInt (s : Str) : Option Int :=
  match trimChars s with
  | [] => none
  | c :: rest =>
    if c = '-' then (readNat? rest).map (fun n => -(n : Int))
    else if c = '+' then (readNat? rest).map (fun n => (n : Int))
    else (readNat? (c :: rest)).map (fun n => (n : Int))

/-- The `parseInt(x) || 0` idiom: `NaN` (and `0` itself) becomes `0`. -/
def jsParseIntD (s : Str) : Int := (jsParseInt s).getD 0

/-- The `parseFloat(x) || 0` idiom.  With numbers idealized as integers,
`parseFloat` agrees with `parseInt` on the integral numerals that occur in the
price columns, so it is modelled by the same reader. -/
def jsParseFloatD (s : Str) : Int := (jsParseInt s).getD 0

/-- JavaScript `s.split(sep)` for a one-character separator. -/
def splitOnChar (sep : Char) : Str → List Str
  | [] => [[]]
  | c :: cs =>
    match splitOnChar sep cs with
    | [] => [[c]]
    | r :: rs => if c = sep then [] :: r :: rs else (c :: r) :: rs

/-- JavaScript `Array.prototype.join(sep)` for a one-character separator. -/
def joinSep (sep : Char) : List Str → Str
  | [] => []
  | [x] => x
  | x :: y :: xs => x ++ sep :: joinSep sep (y :: xs)

/-- The regex replacement `/^"|"$/g → ''`: drop one leading double quote. -/
def dropLeadingQuote (cs : Str) : Str :=
  match cs with
  | c :: rest => if c = quoteChar then rest else cs
  | [] => []

/-- The regex replacement `/^"|"$/g → ''`: drop one trailing double quote. -/
def dropTrailingQuote (cs : Str) : Str :=
  if cs.getLast? = some quoteChar then cs.dropLast else cs

/-- The regex replacement `/""/g → '"'`: collapse doubled quotes, left to
right, non-overlapping. -/
def collapseQuotes : Str → Str
  | [] => []
  | [c] => [c]
  | c1 :: c2 :: rest =>
    if c1 = quoteChar ∧ c2 = quoteChar then quoteChar :: collapseQuotes rest
    else c1 :: collapseQuotes (c2 :: rest)

/-- The doubled-quote escaping `replace(/"/g, '""')` used on CSV export. -/
def doubleQuotes (cs : Str) : Str :=
  cs.flatMap (fun c => if c = quoteChar then [quoteChar, quoteChar] else [c])

/-- Whether the string contains two adjacent double quotes. -/
def hasDoubleQuote : Str → Bool
  | c1 :: c2 :: rest =>
    if c1 = quoteChar ∧ c2 = quoteChar then true else hasDoubleQuote (c2 :: rest)
  | _ => false

/-- Per-cell clean-up of `parseCSV`:
`v.trim().replace(/^"|"$/g, '').replace(/""/g, '"')`. -/
def cleanCell (v : Str) : Str :=
  collapseQuotes (dropTrailingQuote (dropLeadingQuote (trimChars v)))

/-- Falsy-defaulting `a || d` for the string-typed fields (`undefined` and the
empty string are falsy). -/
def jsStrOr (o : Option Str) (d : Str) : Str :=
  match o with
  | none => d
  | some v => if v = [] then d else v

/-- Falsy-defaulting `a || d` for the number-typed fields (`undefined` and `0`
are falsy). -/
def jsIntOr (o : Option Int) (d : Int) : Int :=
  match o with
  | none => d
  | some v => if v = 0 then d else v

/-- The `IN | OUT` transaction type of `types.ts`. -/
inductive TransactionType where
  | IN
  | OUT
deriving DecidableEq, Repr

/-- The `Product` record of `types.ts`. -/
structure Product where
  id : Str
  sku : Str
  name : Str
  category : Str
  quantity : Int
  minThreshold : Int
  purchasePrice : Int
  sellingPrice : Int
  boxNumber : Str
  description : Str
  lastUpdated : Int
deriving DecidableEq, Repr

/-- The `Transaction` record of `types.ts`. -/
structure Transaction where
  id : Str
  productId : Str
  productName : Str
  type : TransactionType
  quantity : Int
  reason : Str
  timestamp : Int
  userId : Str
deriving DecidableEq, Repr

/-- The derived `InventoryStats` record of `types.ts`. -/
structure InventoryStats where
  totalItems : Int
  lowStockItems : Nat
  totalValue : Int
  outOfStock : Nat
deriving DecidableEq, Repr

/-- The in-memory application state held by `App.tsx`: the product collection
and the transaction log (newest first, as delivered by the persistence
adapter and maintained by the optimistic updates). -/
structure AppState where
  products : List Product
  transactions : List Transaction
deriving DecidableEq, Repr

/-- The `stats` memo of `App.tsx`. -/
def stats (products : List Product) : InventoryStats :=
  { totalItems := products.foldl (fun acc p => acc + p.quantity) 0
    lowStockItems := (products.filter (fun p => 0 < p.quantity ∧ p.quantity ≤ p.minThreshold)).length
    totalValue := products.foldl (fun acc p => acc + p.quantity * p.sellingPrice) 0
    outOfStock := (products.filter (fun p => p.quantity ≤ 0)).length }

/-- `processStockTransaction` of `App.tsx` (success path of the persistence
calls).  `stockActionType` is the modal's direction state, `newTxId` the
generated transaction id and `now` the clock reading.  An unknown `productId`
is a silent no-op. -/
def processStockTransaction (s : AppState) (stockActionType : TransactionType)
    (newTxId : Str) (now : Int) (productId : Str) (amount : Int) (reason : Str)
    (newBoxNumber : Option Str) : AppState :=
  match s.products.find? (fun p => decide (p.id = productId)) with
  | none => s
  | some product =>
    let newQty : Int :=
      if stockActionType = TransactionType.IN then product.quantity + amount
      else max 0 (product.quantity - amount)
    let updatedProduct : Product :=
      { product with
        quantity := newQty
        boxNumber := jsStrOr newBoxNumber product.boxNumber
        lastUpdated := now }
    let newTx : Transaction :=
      { id := newTxId
        productId := productId
        productName := product.name
        type := stockActionType
        quantity := amount
        reason :=
          match newBoxNumber with
          | some nb =>
            if nb ≠ [] ∧ nb ≠ product.boxNumber then
              reason ++ (' ' :: '(' :: 'B' :: 'o' :: 'x' :: ':' :: ' ' :: nb) ++ [')']
            else reason
          | none => reason
        timestamp := now
        userId := "Admin".data }
    { products := s.products.map (fun p => if p.id = productId then updatedProduct else p)
      transactions := newTx :: s.transactions }

/-- The `Partial<Product>` payload of the product form (the form never passes
an `id`). -/
structure PartialProduct where
  sku : Option Str := none
  name : Option Str := none
  category : Option Str := none
  quantity : Option Int := none
  minThreshold : Option Int := none
  purchasePrice : Option Int := none
  sellingPrice : Option Int := none
  boxNumber : Option Str := none
  description : Option Str := none
deriving DecidableEq, Repr

/-- The `finalProduct` computed by `saveProduct` of `App.tsx`: the create path
applies `||`-defaults (so every falsy supplied value is replaced), the edit
path spreads `data` over the selected product (replacing exactly the supplied
keys). -/
def buildFinalProduct (genId : Str) (genSkuNum : Nat) (now : Int)
    (selectedProduct : Option Product) (data : PartialProduct) : Product :=
  match selectedProduct with
  | some sp =>
    { id := sp.id
      sku := data.sku.getD sp.sku
      name := data.name.getD sp.name
      category := data.category.getD sp.category
      quantity := data.quantity.getD sp.quantity
      minThreshold := data.minThreshold.getD sp.minThreshold
      purchasePrice := data.purchasePrice.getD sp.purchasePrice
      sellingPrice := data.sellingPrice.getD sp.sellingPrice
      boxNumber := data.boxNumber.getD sp.boxNumber
      description := data.description.getD sp.description
      lastUpdated := now }
  | none =>
    { id := genId
      sku := jsStrOr data.sku ("SKU-".data ++ natToDigits genSkuNum)
      name := jsStrOr data.name "New Product".data
      category := jsStrOr data.category "Uncategorized".data
      quantity := jsIntOr data.quantity 0
      minThreshold := jsIntOr data.minThreshold 5
      purchasePrice := jsIntOr data.purchasePrice 0
      sellingPrice := jsIntOr data.sellingPrice 0
      boxNumber := jsStrOr data.boxNumber "N/A".data
      description := jsStrOr data.description []
      lastUpdated := now }

/-- `saveProduct` of `App.tsx` (success path): the effect on the product
collection. -/
def saveProduct (genId : Str) (genSkuNum : Nat) (now : Int)
    (selectedProduct : Option Product) (data : PartialProduct)
    (products : List Product) : List Product :=
  let finalProduct := buildFinalProduct genId genSkuNum now selectedProduct data
  match selectedProduct with
  | some sp => products.map (fun p => if p.id = sp.id then finalProduct else p)
  | none => products ++ [finalProduct]

/-- The header row of `exportToCSV` of `csvService.ts`. -/
def csvHeader : Str :=
  "SKU,Name,Category,Quantity,Min Threshold,Purchase Price,Selling Price,Box Number,Description".data

/-- Wrapping of a string field in double quotes on export. -/
def quoteField (s : Str) : Str := quoteChar :: s ++ [quoteChar]

/-- One CSV row of `exportToCSV` for one product (only `description` gets
doubled-quote escaping, matching the source). -/
def productRow (p : Product) : Str :=
  joinSep ','
    [quoteField p.sku, quoteField p.name, quoteField p.category,
     intToStr p.quantity, intToStr p.minThreshold,
     intToStr p.purchasePrice, intToStr p.sellingPrice,
     quoteField p.boxNumber, quoteField (doubleQuotes p.description)]

/-- `exportToCSV` of `csvService.ts`: the generated file content (`none` for
the early return on an empty catalog, where no file is produced). -/
def exportToCSV (products : List Product) : Option Str :=
  if products.length = 0 then none
  else some (joinSep '\n' (csvHeader :: products.map productRow))

/-- One loop iteration of `parseCSV`: `none` models `continue` (blank line or
fewer than 7 columns); `freshId` is the `crypto.randomUUID()` value for this
row. -/
def parseCSVRow (freshId : Str) (now : Int) (existingProducts : List Product)
    (line : Str) : Option Product :=
  if trimChars line = [] then none
  else
    let values := (splitOnChar ',' line).map cleanCell
    if values.length < 7 then none
    else
      let sku := values.getD 0 []
      let pid :=
        match existingProducts.find? (fun ep => decide (ep.sku = sku)) with
        | some ep => ep.id
        | none => freshId
      some
        { id := pid
          sku := sku
          name := values.getD 1 []
          category := values.getD 2 []
          quantity := jsParseIntD (values.getD 3 [])
          minThreshold := jsParseIntD (values.getD 4 [])
          purchasePrice := jsParseFloatD (values.getD 5 [])
          sellingPrice := jsParseFloatD (values.getD 6 [])
          boxNumber := values.getD 7 []
          description := values.getD 8 []
          lastUpdated := now }

/-- The `for` loop of `parseCSV`, starting at line index `i`. -/
def parseCSVRows (freshIds : Nat → Str) (now : Int) (existingProducts : List Product) :
    Nat → List Str → List Product
  | _, [] => []
  | i, line :: rest =>
    match parseCSVRow (freshIds i) now existingProducts line with
    | none => parseCSVRows freshIds now existingProducts (i + 1) rest
    | some p => p :: parseCSVRows freshIds now existingProducts (i + 1) rest

/-- `parseCSV` of `csvService.ts`: split on newlines, skip the header line,
then run the row loop.  `freshIds` supplies the per-row `crypto.randomUUID()`
values. -/
def parseCSV (freshIds : Nat → Str) (now : Int) (text : Str)
    (existingProducts : List Product) : List Product :=
  parseCSVRows freshIds now existingProducts 1 ((splitOnChar '\n' text).drop 1)

/-- The product shape used by the Reports view (`Reports.tsx` names the
stock and price fields `stock`, `costPrice`, `sellPrice`). -/
structure ReportsProduct where
  id : Str
  sku : Str
  name : Str
  category : Str
  stock : Int
  costPrice : Int
  sellPrice : Int
  boxNumber : Str
deriving DecidableEq, Repr

/-- The accumulator of the Reports view's `stockSummary` reduce. -/
structure StockSummary where
  totalValue : Int
  totalItems : Int
deriving DecidableEq, Repr

/-- `stockSummary` of `Reports.tsx`: stock valuation by cost price. -/
def stockSummary (products : List ReportsProduct) : StockSummary :=
  products.foldl
    (fun acc p => { totalValue := acc.totalValue + p.stock * p.costPrice, totalItems := acc.totalItems + p.stock })
    { totalValue := 0, totalItems := 0 }

/-- Identification of the main `Product` shape with the Reports view's shape:
`stock` is the quantity, `costPrice` the purchase price, `sellPrice` the
selling price. -/
def toReportsProduct (p : Product) : ReportsProduct :=
  { id := p.id, sku := p.sku, name := p.name, category := p.category,
    stock := p.quantity, costPrice := p.purchasePrice, sellPrice := p.sellingPrice,
    boxNumber := p.boxNumber }

/-- The transaction portion of the snapshot `getInventoryInsights` of
`geminiService.ts` puts into the request: `transactions.slice(-20)`, the last
20 elements of the held transaction array. -/
def insightTransactionsSnapshot (transactions : List Transaction) : List Transaction :=
  transactions.drop (transactions.length - 20)

/-- A concrete catalog product used by the witnesses. -/
def sampleProduct : Product :=
  { id := "p1".data, sku := "SKU1".data, name := "Widget".data, category := "Cat".data,
    quantity := 10, minThreshold := 2, purchasePrice := 5, sellingPrice := 7,
    boxNumber := "B1".data, description := [], lastUpdated := 0 }

/-- A concrete one-product application state used by the witnesses. -/
def sampleState : AppState := { products := [sampleProduct], transactions := [] }

/-- The fields the CSV round-trip property compares: SKU, name, category,
quantity, minimum threshold, purchase price and selling price. -/
structure KeyFields where
  sku : Str
  name : Str
  category : Str
  quantity : Int
  minThreshold : Int
  purchasePrice : Int
  sellingPrice : Int
deriving DecidableEq, Repr

/-- Projection of a product onto the CSV round-trip comparison fields. -/
def keyFields (p : Product) : KeyFields :=
  { sku := p.sku, name := p.name, category := p.category, quantity := p.quantity,
    minThreshold := p.minThreshold, purchasePrice := p.purchasePrice,
    sellingPrice := p.sellingPrice }

/-- A product whose name contains a comma, refuting the unrestricted CSV
round-trip. -/
def commaProduct : Product := { sampleProduct with name := "a,b".data }

/-- A transaction with a given timestamp (all other fields fixed), for the
insight-snapshot analysis. -/
def tsTx (ts : Int) : Transaction :=
  { id := [], productId := [], productName := [], type := TransactionType.OUT,
    quantity := 1, reason := [], timestamp := ts, userId := [] }

/-- 21 transactions ordered newest-first: timestamps 21, 20, ..., 1, the order
in which the persistence adapter (`fetchTransactions`, descending timestamps)
and the optimistic prepends deliver the log. -/
def newestFirst21 : List Transaction := (List.range 21).map (fun i => tsTx (21 - (i : Int)))

/-- The product record produced by importing the CSV row `A,B,C,5,1,1,1`
against an empty catalog (fresh id `"f"`, clock 0). -/
def importedRowProduct : Product :=
  { id := "f".data, sku := "A".data, name := "B".data, category := "C".data,
    quantity := 5, minThreshold := 1, purchasePrice := 1, sellingPrice := 1,
    boxNumber := [], description := [], lastUpdated := 0 }

/-- Row acceptance condition of the `parseCSV` loop: the trimmed line is
non-blank and it splits into at least 7 comma-separated columns. -/
def validRow (line : Str) : Bool :=
  !(trimChars line).isEmpty && decide (7 ≤ (splitOnChar ',' line).length)

/-- An existing catalog product with SKU `A` and id `e1`, for the import
reconciliation witnesses. -/
def existingCatalogProduct : Product :=
  { sampleProduct with id := "e1".data, sku := "A".data }

/-- An import text with one row matching SKU `A` and one novel row of SKU
`B`. -/
def reconcileText : Str := "H\nA,x,c,1,1,1,1\nB,y,c,1,1,1,1".data

/-- The record imported from the matching row of `reconcileText`: it carries
the existing product's id `e1`. -/
def reconciledMatch : Product :=
  { id := "e1".data, sku := "A".data, name := "x".data, category := "c".data,
    quantity := 1, minThreshold := 1, purchasePrice := 1, sellingPrice := 1,
    boxNumber := [], description := [], lastUpdated := 0 }

/-- The record imported from the novel row of `reconcileText`: it carries the
freshly generated id `f`. -/
def reconciledNovel : Product :=
  { reconciledMatch with id := "f".data, sku := "B".data, name := "y".data }

/-- An import text with a header, a malformed 5-column row and a row whose
quantity cell is the non-numeric `abc`. -/
def malformedText : Str := "H\nA,B,C,D,E\nS1,N1,C1,abc,2,3,4,B1,D1".data

/-- The single record imported from `malformedText`: the 5-column row is
skipped and the non-numeric quantity defaults to 0. -/
def malformedTextProduct : Product :=
  { id := "f".data, sku := "S1".data, name := "N1".data, category := "C1".data,
    quantity := 0, minThreshold := 2, purchasePrice := 3, sellingPrice := 4,
    boxNumber := "B1".data, description := "D1".data, lastUpdated := 0 }

/-- Cleanliness condition on a product's string fields under which the CSV
round-trip is exact: no commas or newlines in any exported string field, and
no doubled quotes in the quoted-but-unescaped fields (only `description` is
escaped by `exportToCSV`). -/
def cleanForCSV (p : Product) : Prop :=
  ',' ∉ p.sku ∧ '\n' ∉ p.sku ∧ hasDoubleQuote p.sku = false
  ∧ ',' ∉ p.name ∧ '\n' ∉ p.name ∧ hasDoubleQuote p.name = false
  ∧ ',' ∉ p.category ∧ '\n' ∉ p.category ∧ hasDoubleQuote p.category = false
  ∧ ',' ∉ p.boxNumber ∧ '\n' ∉ p.boxNumber ∧ hasDoubleQuote p.boxNumber = false
  ∧ ',' ∉ p.description ∧ '\n' ∉ p.description

/-- The `values[i]` accessor of `parseCSV`: cell `i` of a row after the
per-cell clean-up (out-of-range indices give the empty string, as
`values[i] || ''` does). -/
def csvCell (line : Str) (i : Nat) : Str :=
  ((splitOnChar ',' line).map cleanCell).getD i []

/-! ### Helper lemmas about the embedded operations -/

theorem foldl_quantity (l : List Product) : ∀ a : Int,
    l.foldl (fun acc p => acc + p.quantity) a = a + (l.map (fun p => p.quantity)).sum := by
  induction l with
  | nil => intro a; simp
  | cons p l ih =>
    intro a
    rw [List.foldl_cons, ih (a + p.quantity)]
    simp [List.sum_cons]
    ring

theorem stats_totalItems (l : List Product) :
    (stats l).totalItems = (l.map (fun p => p.quantity)).sum := by
  simp [stats, foldl_quantity]

theorem find?_id_append {l₁ l₂ : List Product} {p : Product} {pid : Str}
    (h1 : ∀ x ∈ l₁, x.id ≠ pid) (hp : p.id = pid) :
    (l₁ ++ p :: l₂).find? (fun x => decide (x.id = pid)) = some p := by
  induction l₁ with
  | nil =>
    rw [List.nil_append, List.find?_cons_of_pos]
    simp [hp]
  | cons a l ih =>
    have ha : a.id ≠ pid := h1 a (List.mem_cons_self a l)
    rw [List.cons_append, List.find?_cons_of_neg _ (by simp [ha])]
    exact ih (fun x hx => h1 x (List.mem_cons_of_mem a hx))

theorem map_update_id {l : List Product} {pid : Str} {u : Product}
    (h : ∀ x ∈ l, x.id ≠ pid) :
    l.map (fun x => if x.id = pid then u else x) = l := by
  induction l with
  | nil => rfl
  | cons a l ih =>
    rw [List.map_cons, if_neg (h a (List.mem_cons_self a l)),
      ih (fun x hx => h x (List.mem_cons_of_mem a hx))]

theorem find?_map_update (u : Product) {l : List Product} {pid : Str} {p : Product}
    (hu : u.id = pid)
    (h : l.find? (fun x => decide (x.id = pid)) = some p) :
    (l.map (fun x => if x.id = pid then u else x)).find? (fun x => decide (x.id = pid))
      = some u := by
  induction l with
  | nil => simp at h
  | cons a l ih =>
    by_cases ha : a.id = pid
    · rw [List.map_cons, if_pos ha, List.find?_cons_of_pos _ (by simp [hu])]
    · rw [List.find?_cons_of_neg _ (by simp [ha])] at h
      rw [List.map_cons, if_neg ha, List.find?_cons_of_neg _ (by simp [ha])]
      exact ih h

theorem sum_quantity_update {l₁ l₂ : List Product} {p u : Product} {pid : Str}
    (hp : p.id = pid) (h1 : ∀ x ∈ l₁, x.id ≠ pid) (h2 : ∀ x ∈ l₂, x.id ≠ pid) :
    (((l₁ ++ p :: l₂).map (fun x => if x.id = pid then u else x)).map (fun p => p.quantity)).sum
      = ((l₁ ++ p :: l₂).map (fun p => p.quantity)).sum - p.quantity + u.quantity := by
  rw [List.map_append, List.map_cons, map_update_id h1, map_update_id h2, if_pos hp]
  simp [List.sum_append]
  ring

/-- Characterization of `processStockTransaction` when the product is found. -/
theorem processStockTransaction_eq_found {s : AppState} {dir : TransactionType}
    {txid : Str} {now : Int} {pid : Str} {amount : Int} {reason : Str}
    {nb : Option Str} {q : Product}
    (hfind : s.products.find? (fun x => decide (x.id = pid)) = some q) :
    processStockTransaction s dir txid now pid amount reason nb =
      { products := s.products.map (fun x =>
          if x.id = pid then
            { q with
              quantity := if dir = TransactionType.IN then q.quantity + amount
                          else max 0 (q.quantity - amount)
              boxNumber := jsStrOr nb q.boxNumber
              lastUpdated := now }
          else x)
        transactions :=
          { id := txid
            productId := pid
            productName := q.name
            type := dir
            quantity := amount
            reason :=
              match nb with
              | some b =>
                if b ≠ [] ∧ b ≠ q.boxNumber then
                  reason ++ (' ' :: '(' :: 'B' :: 'o' :: 'x' :: ':' :: ' ' :: b) ++ [')']
                else reason
              | none => reason
            timestamp := now
            userId := "Admin".data } :: s.transactions } := by
  unfold processStockTransaction
  rw [hfind]

/-- Characterization of `processStockTransaction` on an unknown product id. -/
theorem processStockTransaction_eq_missing {s : AppState} {dir : TransactionType}
    {txid : Str} {now : Int} {pid : Str} {amount : Int} {reason : Str} {nb : Option Str}
    (hfind : s.products.find? (fun x => decide (x.id = pid)) = none) :
    processStockTransaction s dir txid now pid amount reason nb = s := by
  unfold processStockTransaction
  rw [hfind]

/-! ### C1 -/

/-- C1: every successful stock movement (`processStockTransaction` on an
existing product id) appends exactly one new `Transaction` to the log; its
`quantity` equals the requested amount and its `type` equals the requested
direction, regardless of whether the quantity change was clamped at 0. -/
theorem claim_C1 (s : AppState) (dir : TransactionType) (txid : Str) (now : Int)
    (pid : Str) (amount : Int) (reason : Str) (nb : Option Str) (p : Product)
    (h : s.products.find? (fun x => decide (x.id = pid)) = some p) :
    (processStockTransaction s dir txid now pid amount reason nb).transactions.length
      = s.transactions.length + 1
    ∧ (processStockTransaction s dir txid now pid amount reason nb).transactions.tail
      = s.transactions
    ∧ (processStockTransaction s dir txid now pid amount reason nb).transactions.head?.map
        Transaction.quantity = some amount
    ∧ (processStockTransaction s dir txid now pid amount reason nb).transactions.head?.map
        Transaction.type = some dir := by
  rw [processStockTransaction_eq_found h]
  exact ⟨by simp, rfl, rfl, rfl⟩

/-- C1 witness: an IN movement of 4 on the sample product. -/
theorem claim_C1_witness :
    (processStockTransaction sampleState TransactionType.IN "t1".data 99 "p1".data 4
        "r".data none).transactions.length = sampleState.transactions.length + 1
    ∧ (processStockTransaction sampleState TransactionType.IN "t1".data 99 "p1".data 4
        "r".data none).transactions.tail = sampleState.transactions
    ∧ (processStockTransaction sampleState TransactionType.IN "t1".data 99 "p1".data 4
        "r".data none).transactions.head?.map Transaction.quantity = some 4
    ∧ (processStockTransaction sampleState TransactionType.IN "t1".data 99 "p1".data 4
        "r".data none).transactions.head?.map Transaction.type = some TransactionType.IN :=
  claim_C1 sampleState TransactionType.IN "t1".data 99 "p1".data 4 "r".data none
    sampleProduct (by decide)

/-! ### C2 -/

/-- C2: a stock movement on an existing product with quantity `q` sets the new
quantity to `q + A` for IN and to `max 0 (q - A)` for OUT (never negative),
while the appended transaction records the unclamped requested amount. -/
theorem claim_C2 (s : AppState) (dir : TransactionType) (txid : Str) (now : Int)
    (pid : Str) (amount : Int) (reason : Str) (nb : Option Str) (p : Product)
    (h : s.products.find? (fun x => decide (x.id = pid)) = some p) :
    ((processStockTransaction s dir txid now pid amount reason nb).products.find?
        (fun x => decide (x.id = pid))).map Product.quantity
      = some (if dir = TransactionType.IN then p.quantity + amount
              else max 0 (p.quantity - amount))
    ∧ (0 : Int) ≤ max 0 (p.quantity - amount)
    ∧ (processStockTransaction s dir txid now pid amount reason nb).transactions.head?.map
        Transaction.quantity = some amount := by
  have hpid : p.id = pid := by simpa using List.find?_some h
  rw [processStockTransaction_eq_found h]
  dsimp only
  refine ⟨?_, le_max_left 0 _, rfl⟩
  rw [find?_map_update
    { p with
      quantity := if dir = TransactionType.IN then p.quantity + amount
                  else max 0 (p.quantity - amount)
      boxNumber := jsStrOr nb p.boxNumber
      lastUpdated := now } hpid h]
  rfl

/-- C2 witness: the spec scenario, an OUT movement of 15 on the sample product
with quantity 10 — the resulting quantity is clamped to 0 while the appended
transaction records 15. -/
theorem claim_C2_witness :
    ((processStockTransaction sampleState TransactionType.OUT "t1".data 99 "p1".data 15
        "r".data none).products.find? (fun x => decide (x.id = "p1".data))).map
        Product.quantity
      = some (if TransactionType.OUT = TransactionType.IN then sampleProduct.quantity + 15
              else max 0 (sampleProduct.quantity - 15))
    ∧ (0 : Int) ≤ max 0 (sampleProduct.quantity - 15)
    ∧ (processStockTransaction sampleState TransactionType.OUT "t1".data 99 "p1".data 15
        "r".data none).transactions.head?.map Transaction.quantity = some 15
    ∧ (max 0 (sampleProduct.quantity - 15) : Int) = 0 :=
  ⟨(claim_C2 sampleState TransactionType.OUT "t1".data 99 "p1".data 15 "r".data none
      sampleProduct (by decide)).1,
   (claim_C2 sampleState TransactionType.OUT "t1".data 99 "p1".data 15 "r".data none
      sampleProduct (by decide)).2.1,
   (claim_C2 sampleState TransactionType.OUT "t1".data 99 "p1".data 15 "r".data none
      sampleProduct (by decide)).2.2,
   by decide⟩

/-! ### C4 -/

/-- C4: effect of a stock movement on the aggregator's `totalItems`, for a
catalog in which the moved product's id occurs exactly once: an IN movement of
`A` adds `A`; an OUT movement of `A` on quantity `q` subtracts `min A q`. -/
theorem claim_C4 (s : AppState) (l₁ l₂ : List Product) (p : Product) (pid : Str)
    (txid : Str) (now : Int) (amount : Int) (reason : Str) (nb : Option Str)
    (hsplit : s.products = l₁ ++ p :: l₂) (hp : p.id = pid)
    (h1 : ∀ x ∈ l₁, x.id ≠ pid) (h2 : ∀ x ∈ l₂, x.id ≠ pid) :
    (stats (processStockTransaction s TransactionType.IN txid now pid amount reason
        nb).products).totalItems
      = (stats s.products).totalItems + amount
    ∧ (stats (processStockTransaction s TransactionType.OUT txid now pid amount reason
        nb).products).totalItems
      = (stats s.products).totalItems - min amount p.quantity := by
  have hfind : s.products.find? (fun x => decide (x.id = pid)) = some p := by
    rw [hsplit]; exact find?_id_append h1 hp
  constructor
  · rw [processStockTransaction_eq_found hfind]
    dsimp only
    rw [stats_totalItems, stats_totalItems, hsplit, sum_quantity_update hp h1 h2]
    dsimp only
    rw [if_pos rfl]
    ring
  · rw [processStockTransaction_eq_found hfind]
    dsimp only
    rw [stats_totalItems, stats_totalItems, hsplit, sum_quantity_update hp h1 h2]
    dsimp only
    rw [if_neg (by decide), Int.max_def, Int.min_def]
    split_ifs <;> omega

/-- C4 witness: IN of 4 and OUT of 4 on the one-product sample state. -/
theorem claim_C4_witness :
    (stats (processStockTransaction sampleState TransactionType.IN "t1".data 99 "p1".data 4
        "r".data none).products).totalItems
      = (stats sampleState.products).totalItems + 4
    ∧ (stats (processStockTransaction sampleState TransactionType.OUT "t1".data 99 "p1".data 4
        "r".data none).products).totalItems
      = (stats sampleState.products).totalItems - min 4 sampleProduct.quantity :=
  claim_C4 sampleState [] [] sampleProduct "p1".data "t1".data 99 4 "r".data none
    rfl rfl (by simp) (by simp)

/-! ### C8 -/

/-- C8: the dashboard aggregator values stock at `quantity × sellingPrice`
while the Reports view's `stockSummary` values it at `stock × costPrice`
(purchase price); on any catalog holding a product with positive stock whose
selling price differs from its cost price the two totals disagree. -/
theorem claim_C8 (p : Product) (hq : 0 < p.quantity)
    (hne : p.purchasePrice ≠ p.sellingPrice) :
    (stats [p]).totalValue ≠ (stockSummary ([p].map toReportsProduct)).totalValue := by
  simp only [stats, stockSummary, toReportsProduct, List.map_cons, List.map_nil,
    List.foldl_cons, List.foldl_nil]
  intro hcontra
  simp only [zero_add] at hcontra
  exact hne (mul_left_cancel₀ (ne_of_gt hq) hcontra).symm

/-- C8 witness: the sample product (quantity 10, purchase price 5, selling
price 7). -/
theorem claim_C8_witness :
    (stats [sampleProduct]).totalValue
      ≠ (stockSummary ([sampleProduct].map toReportsProduct)).totalValue :=
  claim_C8 sampleProduct (by decide) (by decide)

/-! ### C9 -/

/-- C9 (failing input): the transaction snapshot `getInventoryInsights` sends
is `transactions.slice(-20)`.  On a log of 21 transactions held newest-first
(timestamps 21, 20, ..., 1 — the adapter's `fetchTransactions` order), the
snapshot has 20 entries but omits the newest transaction (timestamp 21, the
head) and instead contains the oldest one (timestamp 1): it is not the set of
20 transactions with the greatest timestamps. -/
theorem claim_C9 :
    List.Pairwise (fun a b => b.timestamp ≤ a.timestamp) newestFirst21
    ∧ newestFirst21.head? = some (tsTx 21)
    ∧ (insightTransactionsSnapshot newestFirst21).length = 20
    ∧ tsTx 21 ∉ insightTransactionsSnapshot newestFirst21
    ∧ tsTx 1 ∈ insightTransactionsSnapshot newestFirst21 := by
  decide

/-! ### C10 -/

/-- C10: in `saveProduct`'s create path the `||` fallbacks replace every falsy
supplied value, not only absent fields: an explicitly supplied
`minThreshold` of 0 is stored as 5, and empty-string SKU, name, category and
box number are replaced by the generated or placeholder defaults. -/
theorem claim_C10 (genId : Str) (genSkuNum : Nat) (now : Int) (data : PartialProduct)
    (hm : data.minThreshold = some 0) (hs : data.sku = some [])
    (hn : data.name = some []) (hc : data.category = some [])
    (hb : data.boxNumber = some []) :
    (buildFinalProduct genId genSkuNum now none data).minThreshold = 5
    ∧ (buildFinalProduct genId genSkuNum now none data).sku
        = "SKU-".data ++ natToDigits genSkuNum
    ∧ (buildFinalProduct genId genSkuNum now none data).name = "New Product".data
    ∧ (buildFinalProduct genId genSkuNum now none data).category = "Uncategorized".data
    ∧ (buildFinalProduct genId genSkuNum now none data).boxNumber = "N/A".data := by
  simp [buildFinalProduct, hm, hs, hn, hc, hb, jsStrOr, jsIntOr]

/-- C10 witness: a create payload with `minThreshold = 0` and empty strings
for SKU, name, category and box number. -/
theorem claim_C10_witness :
    (buildFinalProduct "g1".data 7 0 none
        { sku := some [], name := some [], category := some [],
          minThreshold := some 0, boxNumber := some [] }).minThreshold = 5
    ∧ (buildFinalProduct "g1".data 7 0 none
        { sku := some [], name := some [], category := some [],
          minThreshold := some 0, boxNumber := some [] }).sku
        = "SKU-".data ++ natToDigits 7
    ∧ (buildFinalProduct "g1".data 7 0 none
        { sku := some [], name := some [], category := some [],
          minThreshold := some 0, boxNumber := some [] }).name = "New Product".data
    ∧ (buildFinalProduct "g1".data 7 0 none
        { sku := some [], name := some [], category := some [],
          minThreshold := some 0, boxNumber := some [] }).category = "Uncategorized".data
    ∧ (buildFinalProduct "g1".data 7 0 none
        { sku := some [], name := some [], category := some [],
          minThreshold := some 0, boxNumber := some [] }).boxNumber = "N/A".data :=
  claim_C10 "g1".data 7 0
    { sku := some [], name := some [], category := some [],
      minThreshold := some 0, boxNumber := some [] }
    rfl rfl rfl rfl rfl

/-! ### C3 -/

/-- C3 counterexample: the engine accepts any caller-supplied amount, so an IN
movement with amount −15 on the sample product (quantity 10) leaves a product
with quantity −5 < 0, violating the unconditional non-negativity claim. -/
theorem claim_C3_counterexample :
    ((processStockTransaction sampleState TransactionType.IN "t1".data 99 "p1".data (-15)
        "r".data none).products.find? (fun x => decide (x.id = "p1".data))).map
        Product.quantity = some (-5)
    ∧ ((-5 : Int) < 0) := by
  decide

/-- Quantity of a product accepted by one `parseCSV` row iteration. -/
theorem parseCSVRow_quantity {fid : Str} {now : Int} {existing : List Product}
    {line : Str} {p : Product}
    (h : parseCSVRow fid now existing line = some p) :
    p.quantity = jsParseIntD (((splitOnChar ',' line).map cleanCell).getD 3 []) := by
  simp only [parseCSVRow] at h
  split_ifs at h
  all_goals
    first
      | exact Option.noConfusion h
      | (injection h with h2; subst h2; rfl)

/-- All quantities produced by the `parseCSV` loop are bounded below by the
row-wise parsed values. -/
theorem parseCSVRows_nonneg (freshIds : Nat → Str) (now : Int)
    (existing : List Product) :
    ∀ (rows : List Str) (i : Nat),
      (∀ line ∈ rows,
        (0 : Int) ≤ jsParseIntD (((splitOnChar ',' line).map cleanCell).getD 3 [])) →
      ∀ p ∈ parseCSVRows freshIds now existing i rows, 0 ≤ p.quantity := by
  intro rows
  induction rows with
  | nil => intro i h p hp; simp [parseCSVRows] at hp
  | cons line rest ih =>
    intro i h p hp
    rw [parseCSVRows] at hp
    cases hrow : parseCSVRow (freshIds i) now existing line with
    | none =>
      rw [hrow] at hp
      exact ih (i + 1) (fun l hl => h l (List.mem_cons_of_mem line hl)) p hp
    | some p0 =>
      rw [hrow] at hp
      rcases List.mem_cons.1 hp with rfl | hp'
      · rw [parseCSVRow_quantity hrow]
        exact h line (List.mem_cons_self line rest)
      · exact ih (i + 1) (fun l hl => h l (List.mem_cons_of_mem line hl)) p hp'

/-- C3 (amended): non-negativity of product quantities is preserved by every
quantity-changing operation *provided the caller-supplied or parsed values are
non-negative*: a stock movement preserves it whenever the direction is OUT
(clamping needs no side condition) or the amount is non-negative; a product
create/edit preserves it when the supplied quantity (if any) is non-negative;
a CSV import preserves it when the quantity cells parse to non-negative
values.  (The unconditional claim is refuted by
`claim_C3_counterexample`.) -/
theorem claim_C3_amended :
    (∀ (s : AppState) (dir : TransactionType) (txid : Str) (now : Int) (pid : Str)
        (amount : Int) (reason : Str) (nb : Option Str),
        (dir = TransactionType.OUT ∨ 0 ≤ amount) →
        (∀ p ∈ s.products, 0 ≤ p.quantity) →
        ∀ p ∈ (processStockTransaction s dir txid now pid amount reason nb).products,
          0 ≤ p.quantity)
    ∧ (∀ (genId : Str) (genSkuNum : Nat) (now : Int) (sel : Option Product)
        (data : PartialProduct) (products : List Product),
        (∀ v, data.quantity = some v → (0 : Int) ≤ v) →
        (∀ sp, sel = some sp → 0 ≤ sp.quantity) →
        (∀ p ∈ products, 0 ≤ p.quantity) →
        ∀ p ∈ saveProduct genId genSkuNum now sel data products, 0 ≤ p.quantity)
    ∧ (∀ (freshIds : Nat → Str) (now : Int) (text : Str) (existing : List Product),
        (∀ line ∈ (splitOnChar '\n' text).drop 1,
          (0 : Int) ≤ jsParseIntD (((splitOnChar ',' line).map cleanCell).getD 3 [])) →
        ∀ p ∈ parseCSV freshIds now text existing, 0 ≤ p.quantity) := by
  refine ⟨?_, ?_, ?_⟩
  · intro s dir txid now pid amount reason nb hdir hall p hp
    cases hfind : s.products.find? (fun x => decide (x.id = pid)) with
    | none =>
      rw [processStockTransaction_eq_missing hfind] at hp
      exact hall p hp
    | some q =>
      rw [processStockTransaction_eq_found hfind] at hp
      rcases List.mem_map.1 hp with ⟨x, hx, hux⟩
      by_cases hid : x.id = pid
      · rw [if_pos hid] at hux
        cases hux
        have hq0 : 0 ≤ q.quantity := hall q (List.mem_of_find?_eq_some hfind)
        show (0 : Int) ≤ if dir = TransactionType.IN then q.quantity + amount
                         else max 0 (q.quantity - amount)
        cases dir with
        | IN =>
          rw [if_pos rfl]
          rcases hdir with hdir | hdir
          · exact absurd hdir (by decide)
          · omega
        | OUT =>
          rw [if_neg (by decide)]
          exact le_max_left 0 _
      · rw [if_neg hid] at hux
        subst hux
        exact hall x hx
  · intro genId genSkuNum now sel data products hdq hsel hall p hp
    cases sel with
    | some sp =>
      rcases List.mem_map.1 hp with ⟨x, hx, hux⟩
      by_cases hid : x.id = sp.id
      · rw [if_pos hid] at hux
        cases hux
        show (0 : Int) ≤ (buildFinalProduct genId genSkuNum now (some sp) data).quantity
        show (0 : Int) ≤ data.quantity.getD sp.quantity
        cases hq : data.quantity with
        | none => simpa using hsel sp rfl
        | some v => simpa using hdq v hq
      · rw [if_neg hid] at hux
        subst hux
        exact hall x hx
    | none =>
      rcases List.mem_append.1 hp with hmem | hmem
      · exact hall p hmem
      · rcases List.mem_singleton.1 hmem with rfl
        show (0 : Int) ≤ jsIntOr data.quantity 0
        cases hq : data.quantity with
        | none => simp [jsIntOr]
        | some v =>
          by_cases hv : v = 0
          · simp [jsIntOr, hv]
          · simpa [jsIntOr, hv] using hdq v hq
  · intro freshIds now text existing hq p hp
    exact parseCSVRows_nonneg freshIds now existing _ 1 hq p hp

/-- C3 amended witness: an OUT movement of 15 on the sample product, a create
with quantity 3, and a CSV import of one row with quantity 5, each yielding a
non-negative stored quantity. -/
theorem claim_C3_amended_witness :
    (0 : Int) ≤ ({ sampleProduct with quantity := 0, lastUpdated := 99 } : Product).quantity
    ∧ (0 : Int) ≤ (buildFinalProduct "g1".data 7 0 none
        ({ quantity := some 3 } : PartialProduct)).quantity
    ∧ (0 : Int) ≤ importedRowProduct.quantity :=
  ⟨claim_C3_amended.1 sampleState TransactionType.OUT "t1".data 99 "p1".data 15
      "r".data none (Or.inl rfl) (by decide)
      { sampleProduct with quantity := 0, lastUpdated := 99 } (by decide),
   claim_C3_amended.2.1 "g1".data 7 0 none ({ quantity := some 3 } : PartialProduct) []
      (by intro v hv; injection hv with hv'; omega) (by intro sp hsp; exact Option.noConfusion hsp)
      (by simp)
      (buildFinalProduct "g1".data 7 0 none ({ quantity := some 3 } : PartialProduct)) (by decide),
   claim_C3_amended.2.2 (fun _ => "f".data) 0 "H\nA,B,C,5,1,1,1".data []
      (by decide) importedRowProduct (by decide)⟩

/-! ### C6 -/

/-- The id stored by one accepted `parseCSV` row: the id of the first
SKU-matching existing product, else the freshly generated id. -/
theorem parseCSVRow_id {fid : Str} {now : Int} {existing : List Product}
    {line : Str} {p : Product}
    (h : parseCSVRow fid now existing line = some p) :
    p.id = (match existing.find? (fun ep => decide (ep.sku = p.sku)) with
            | some ep => ep.id
            | none => fid) := by
  simp only [parseCSVRow] at h
  split_ifs at h
  all_goals
    first
      | exact Option.noConfusion h
      | (injection h with h2; subst h2; rfl)

/-- Every product produced by the `parseCSV` loop comes from one of the rows,
accepted with one of the generated ids. -/
theorem parseCSVRows_mem {freshIds : Nat → Str} {now : Int}
    {existing : List Product} :
    ∀ (rows : List Str) (i : Nat) (p : Product),
      p ∈ parseCSVRows freshIds now existing i rows →
      ∃ (j : Nat) (line : Str), line ∈ rows
        ∧ parseCSVRow (freshIds j) now existing line = some p := by
  intro rows
  induction rows with
  | nil => intro i p hp; simp [parseCSVRows] at hp
  | cons line rest ih =>
    intro i p hp
    rw [parseCSVRows] at hp
    cases hrow : parseCSVRow (freshIds i) now existing line with
    | none =>
      rw [hrow] at hp
      obtain ⟨j, l, hl, hrow'⟩ := ih (i + 1) p hp
      exact ⟨j, l, List.mem_cons_of_mem line hl, hrow'⟩
    | some p0 =>
      rw [hrow] at hp
      rcases List.mem_cons.1 hp with rfl | hp'
      · exact ⟨i, line, List.mem_cons_self line rest, hrow⟩
      · obtain ⟨j, l, hl, hrow'⟩ := ih (i + 1) p hp'
        exact ⟨j, l, List.mem_cons_of_mem line hl, hrow'⟩

/-- C6: during CSV import against an existing catalog, a row whose SKU exactly
matches (case-sensitively) an existing product's SKU produces a record
carrying that product's id, and a row with a novel SKU produces a record whose
freshly generated id differs from every existing id (given that the generator
avoids the existing ids). -/
theorem claim_C6 (freshIds : Nat → Str) (now : Int) (text : Str)
    (existing : List Product)
    (hfresh : ∀ i, ∀ ep ∈ existing, freshIds i ≠ ep.id) :
    ∀ p ∈ parseCSV freshIds now text existing,
      (∀ ep, existing.find? (fun e => decide (e.sku = p.sku)) = some ep → p.id = ep.id)
      ∧ (existing.find? (fun e => decide (e.sku = p.sku)) = none →
          ∀ ep ∈ existing, p.id ≠ ep.id) := by
  intro p hp
  obtain ⟨j, line, _hline, hrow⟩ := parseCSVRows_mem _ _ p hp
  have hid := parseCSVRow_id hrow
  constructor
  · intro ep hep
    rw [hid, hep]
  · intro hnone ep hep
    rw [hid, hnone]
    exact hfresh j ep hep

/-- C6 witness: importing `reconcileText` against the catalog
`[existingCatalogProduct]` — the SKU-`A` row keeps id `e1`, the SKU-`B` row
gets the fresh id. -/
theorem claim_C6_witness :
    reconciledMatch.id = existingCatalogProduct.id
    ∧ reconciledNovel.id ≠ existingCatalogProduct.id :=
  ⟨(claim_C6 (fun _ => "f".data) 0 reconcileText [existingCatalogProduct]
      (by intro i ep hep; rw [List.mem_singleton] at hep; subst hep
          show "f".data ≠ existingCatalogProduct.id; decide)
      reconciledMatch (by decide)).1 existingCatalogProduct (by decide),
   (claim_C6 (fun _ => "f".data) 0 reconcileText [existingCatalogProduct]
      (by intro i ep hep; rw [List.mem_singleton] at hep; subst hep
          show "f".data ≠ existingCatalogProduct.id; decide)
      reconciledNovel (by decide)).2 (by decide) existingCatalogProduct
      (List.mem_singleton.2 rfl)⟩

/-! ### C7 -/

/-- A `parseCSV` row iteration returns `none` exactly when the row is blank
after trimming or has fewer than 7 columns. -/
theorem parseCSVRow_none_iff {fid : Str} {now : Int} {existing : List Product}
    {line : Str} :
    parseCSVRow fid now existing line = none ↔ validRow line = false := by
  simp only [parseCSVRow, validRow]
  split_ifs with h1 h2
  · simp [h1]
  · rw [List.length_map] at h2
    have h7 : ¬(7 ≤ (splitOnChar ',' line).length) := by omega
    simp [h1, h7]
  · rw [List.length_map, Nat.not_lt] at h2
    simp [h1, h2]

/-- Length of the `parseCSV` loop output: one record per accepted row. -/
theorem parseCSVRows_length (freshIds : Nat → Str) (now : Int)
    (existing : List Product) :
    ∀ (rows : List Str) (i : Nat),
      (parseCSVRows freshIds now existing i rows).length = rows.countP validRow := by
  intro rows
  induction rows with
  | nil => intro i; simp [parseCSVRows]
  | cons line rest ih =>
    intro i
    rw [parseCSVRows, List.countP_cons]
    cases hrow : parseCSVRow (freshIds i) now existing line with
    | none =>
      have hv : validRow line = false := parseCSVRow_none_iff.1 hrow
      simp [hv, ih (i + 1)]
    | some p0 =>
      have hv : validRow line = true := by
        rcases Bool.eq_false_or_eq_true (validRow line) with ht | hf
        · exact ht
        · exact absurd
            (parseCSVRow_none_iff.2 hf :
              parseCSVRow (freshIds i) now existing line = none)
            (by simp [hrow])
      simp [hv, ih (i + 1)]

/-- The `|| 0` default: a failed numeric parse stores 0. -/
theorem jsParseIntD_eq_zero {s : Str} (h : jsParseInt s = none) : jsParseIntD s = 0 := by
  rw [jsParseIntD, h]
  rfl

/-- The `|| 0` default on the price columns. -/
theorem jsParseFloatD_eq_zero {s : Str} (h : jsParseInt s = none) : jsParseFloatD s = 0 := by
  rw [jsParseFloatD, h]
  rfl

/-- C7: for every input text, `parseCSV` skips the header line and silently
skips every row that is blank or has fewer than 7 columns (the output has
exactly one record per remaining valid row, and no error is possible); every
record produced by any accepted row of any import takes each of its four
numeric fields from the row's corresponding cell, and whenever that cell fails
to parse as a number (`jsParseInt` gives `none`, the model of `NaN`) the field
is 0; every imported record does come from one of the rows after the header —
and concretely, importing `malformedText` (a 5-column row and a row with
quantity `abc`) yields exactly the one record with quantity 0. -/
theorem claim_C7 :
    (∀ (freshIds : Nat → Str) (now : Int) (text : Str) (existing : List Product),
      (parseCSV freshIds now text existing).length
        = ((splitOnChar '\n' text).drop 1).countP validRow)
    ∧ (∀ (fid : Str) (now : Int) (existing : List Product) (line : Str) (p : Product),
        parseCSVRow fid now existing line = some p →
          p.quantity = jsParseIntD (csvCell line 3)
          ∧ p.minThreshold = jsParseIntD (csvCell line 4)
          ∧ p.purchasePrice = jsParseFloatD (csvCell line 5)
          ∧ p.sellingPrice = jsParseFloatD (csvCell line 6)
          ∧ (jsParseInt (csvCell line 3) = none → p.quantity = 0)
          ∧ (jsParseInt (csvCell line 4) = none → p.minThreshold = 0)
          ∧ (jsParseInt (csvCell line 5) = none → p.purchasePrice = 0)
          ∧ (jsParseInt (csvCell line 6) = none → p.sellingPrice = 0))
    ∧ (∀ (freshIds : Nat → Str) (now : Int) (text : Str) (existing : List Product)
        (p : Product), p ∈ parseCSV freshIds now text existing →
          ∃ (j : Nat) (line : Str), line ∈ (splitOnChar '\n' text).drop 1
            ∧ parseCSVRow (freshIds j) now existing line = some p)
    ∧ parseCSV (fun _ => "f".data) 0 malformedText [] = [malformedTextProduct] := by
  refine ⟨?_, ?_, ?_, by decide⟩
  · intro freshIds now text existing
    exact parseCSVRows_length freshIds now existing _ 1
  · intro fid now existing line p h
    simp only [parseCSVRow] at h
    split_ifs at h
    all_goals
      first
        | exact Option.noConfusion h
        | (injection h with h2
           subst h2
           exact ⟨rfl, rfl, rfl, rfl,
             fun hn => jsParseIntD_eq_zero hn,
             fun hn => jsParseIntD_eq_zero hn,
             fun hn => jsParseFloatD_eq_zero hn,
             fun hn => jsParseFloatD_eq_zero hn⟩)
  · intro freshIds now text existing p hp
    exact parseCSVRows_mem _ 1 p hp

/-- C7 witness: the skipping count at `malformedText`, and the quantity-`abc`
row of `malformedText` producing quantity 0 through the parse-failure
default. -/
theorem claim_C7_witness :
    (parseCSV (fun _ => "f".data) 0 malformedText []).length
      = ((splitOnChar '\n' malformedText).drop 1).countP validRow
    ∧ malformedTextProduct.quantity = 0 :=
  ⟨claim_C7.1 (fun _ => "f".data) 0 malformedText [],
   (claim_C7.2.1 "f".data 0 [] "S1,N1,C1,abc,2,3,4,B1,D1".data malformedTextProduct
      (by decide)).2.2.2.2.1 (by decide)⟩

/-! ### C5: decimal printing and parsing round-trip -/

theorem digitChar_isDigit {n : Nat} (h : n < 10) : isDigitC (digitChar n) = true := by
  interval_cases n <;> decide

theorem digitVal_digitChar {n : Nat} (h : n < 10) : digitVal (digitChar n) = n := by
  interval_cases n <;> decide

theorem mem_natDigitsAux : ∀ (fuel n : Nat), n < fuel →
    ∀ c ∈ natDigitsAux fuel n, isDigitC c = true := by
  intro fuel
  induction fuel with
  | zero => intro n h; omega
  | succ fuel ih =>
    intro n h c hc
    rw [natDigitsAux] at hc
    by_cases h10 : n < 10
    · rw [if_pos h10] at hc
      rcases List.mem_singleton.1 hc with rfl
      exact digitChar_isDigit h10
    · rw [if_neg h10] at hc
      rcases List.mem_append.1 hc with hc | hc
      · exact ih (n / 10) (by omega) c hc
      · rcases List.mem_singleton.1 hc with rfl
        exact digitChar_isDigit (by omega)

theorem digitsToNat_concat (ds : List Char) (c : Char) :
    digitsToNat (ds ++ [c]) = digitsToNat ds * 10 + digitVal c := by
  simp [digitsToNat, List.foldl_append]

theorem digitsToNat_natDigitsAux : ∀ (fuel n : Nat), n < fuel →
    digitsToNat (natDigitsAux fuel n) = n := by
  intro fuel
  induction fuel with
  | zero => intro n h; omega
  | succ fuel ih =>
    intro n h
    rw [natDigitsAux]
    by_cases h10 : n < 10
    · rw [if_pos h10]
      simp [digitsToNat, digitVal_digitChar h10]
    · rw [if_neg h10, digitsToNat_concat, ih (n / 10) (by omega),
        digitVal_digitChar (show n % 10 < 10 by omega)]
      omega

theorem mem_natToDigits {n : Nat} {c : Char} (hc : c ∈ natToDigits n) :
    isDigitC c = true :=
  mem_natDigitsAux (n + 1) n (Nat.lt_succ_self n) c hc

theorem digitsToNat_natToDigits (n : Nat) : digitsToNat (natToDigits n) = n :=
  digitsToNat_natDigitsAux (n + 1) n (Nat.lt_succ_self n)

theorem natToDigits_ne_nil (n : Nat) : natToDigits n ≠ [] := by
  rw [natToDigits, natDigitsAux]
  by_cases h10 : n < 10
  · simp [h10]
  · simp [h10]

theorem takeWhile_eq_self {p : Char → Bool} {l : Str} (h : ∀ c ∈ l, p c = true) :
    l.takeWhile p = l := by
  induction l with
  | nil => rfl
  | cons a t ih =>
    rw [List.takeWhile_cons, h a (List.mem_cons_self a t),
      ih (fun c hc => h c (List.mem_cons_of_mem a hc))]
    simp

theorem readNat?_natToDigits (n : Nat) : readNat? (natToDigits n) = some n := by
  rw [readNat?]
  rw [show takeDigits (natToDigits n) = natToDigits n from
    takeWhile_eq_self (fun c hc => mem_natToDigits hc)]
  rw [if_neg (natToDigits_ne_nil n), digitsToNat_natToDigits]

theorem isWS_of_isDigitC {c : Char} (h : isDigitC c = true) : isWS c = false := by
  simp only [isDigitC, Bool.and_eq_true, decide_eq_true_eq] at h
  simp only [isWS, Bool.or_eq_false_iff, decide_eq_false_iff_not]
  omega

theorem ne_quote_of_isDigitC {c : Char} (h : isDigitC c = true) : c ≠ quoteChar := by
  intro hc
  subst hc
  exact absurd h (by decide)

theorem ne_minus_of_isDigitC {c : Char} (h : isDigitC c = true) : c ≠ '-' := by
  intro hc
  subst hc
  exact absurd h (by decide)

theorem ne_plus_of_isDigitC {c : Char} (h : isDigitC c = true) : c ≠ '+' := by
  intro hc
  subst hc
  exact absurd h (by decide)

theorem dropWhile_eq_self_of_head {l : Str}
    (h : ∀ c, l.head? = some c → isWS c = false) : l.dropWhile isWS = l := by
  cases l with
  | nil => rfl
  | cons a t => rw [List.dropWhile_cons, h a rfl]; simp

theorem trimChars_eq_self {l : Str}
    (hh : ∀ c, l.head? = some c → isWS c = false)
    (hl : ∀ c, l.getLast? = some c → isWS c = false) : trimChars l = l := by
  unfold trimChars
  rw [dropWhile_eq_self_of_head hh]
  rw [dropWhile_eq_self_of_head (by
    intro c hc
    rw [List.head?_reverse] at hc
    exact hl c hc)]
  exact List.reverse_reverse l

theorem trimChars_eq_self_of_all {l : Str} (h : ∀ c ∈ l, isWS c = false) :
    trimChars l = l := by
  refine trimChars_eq_self (fun c hc => ?_) (fun c hc => ?_)
  · exact h c (List.mem_of_mem_head? hc)
  · exact h c (List.mem_of_getLast?_eq_some hc)

theorem mem_dropWhile_of_mem {p : Char → Bool} {l : Str} {c : Char}
    (hc : c ∈ l) (hp : p c = false) : c ∈ l.dropWhile p := by
  induction l with
  | nil => exact absurd hc (List.not_mem_nil c)
  | cons a t ih =>
    rw [List.dropWhile_cons]
    by_cases ha : p a = true
    · rw [ha]
      simp only [if_pos rfl]
      rcases List.mem_cons.1 hc with rfl | hc'
      · exact absurd ha (by simp [hp])
      · exact ih hc'
    · rw [Bool.not_eq_true] at ha
      rw [ha]
      simpa using hc

theorem trimChars_ne_nil {l : Str} {c : Char} (hc : c ∈ l) (hw : isWS c = false) :
    trimChars l ≠ [] := by
  unfold trimChars
  apply List.ne_nil_of_mem (a := c)
  rw [List.mem_reverse]
  apply mem_dropWhile_of_mem _ hw
  rw [List.mem_reverse]
  exact mem_dropWhile_of_mem hc hw

theorem mem_intToStr {i : Int} {c : Char} (hc : c ∈ intToStr i) :
    isDigitC c = true ∨ c = '-' := by
  rw [intToStr] at hc
  by_cases hneg : i < 0
  · rw [if_pos hneg] at hc
    rcases List.mem_cons.1 hc with rfl | hc'
    · exact Or.inr rfl
    · exact Or.inl (mem_natToDigits hc')
  · rw [if_neg hneg] at hc
    exact Or.inl (mem_natToDigits hc)

theorem not_mem_intToStr {i : Int} {c : Char} (hdig : isDigitC c = false)
    (hminus : c ≠ '-') : c ∉ intToStr i := by
  intro hc
  rcases mem_intToStr hc with h | h
  · rw [h] at hdig; exact Bool.noConfusion hdig
  · exact hminus h

theorem trimChars_intToStr (i : Int) : trimChars (intToStr i) = intToStr i := by
  apply trimChars_eq_self_of_all
  intro c hc
  rcases mem_intToStr hc with h | h
  · exact isWS_of_isDigitC h
  · subst h; decide

theorem jsParseIntD_intToStr (i : Int) : jsParseIntD (intToStr i) = i := by
  rw [jsParseIntD, jsParseInt, trimChars_intToStr]
  by_cases hneg : i < 0
  · rw [intToStr, if_pos hneg]
    show (((readNat? (natToDigits i.natAbs)).map (fun n => -(n : Int))).getD 0) = i
    rw [readNat?_natToDigits]
    show -(i.natAbs : Int) = i
    omega
  · rw [intToStr, if_neg hneg]
    obtain ⟨c, rest, hcr⟩ : ∃ c rest, natToDigits i.natAbs = c :: rest := by
      cases h : natToDigits i.natAbs with
      | nil => exact absurd h (natToDigits_ne_nil _)
      | cons c rest => exact ⟨c, rest, rfl⟩
    rw [hcr]
    have hdig : isDigitC c = true := mem_natToDigits (by rw [hcr]; exact List.mem_cons_self c rest)
    show ((if c = '-' then (readNat? rest).map (fun n => -(n : Int))
           else if c = '+' then (readNat? rest).map (fun n => (n : Int))
           else (readNat? (c :: rest)).map (fun n => (n : Int))).getD 0) = i
    rw [if_neg (ne_minus_of_isDigitC hdig), if_neg (ne_plus_of_isDigitC hdig), ← hcr,
      readNat?_natToDigits]
    show (i.natAbs : Int) = i
    omega

/-! ### C5: splitting and joining -/

theorem splitOnChar_ne_nil (sep : Char) (l : Str) : splitOnChar sep l ≠ [] := by
  cases l with
  | nil => simp [splitOnChar]
  | cons c cs =>
    rw [splitOnChar]
    cases h : splitOnChar sep cs with
    | nil => simp
    | cons r rs =>
      by_cases hc : c = sep
      · simp [hc]
      · simp [hc]

theorem splitOnChar_of_not_mem {sep : Char} {l : Str} (h : sep ∉ l) :
    splitOnChar sep l = [l] := by
  induction l with
  | nil => rfl
  | cons c cs ih =>
    have hc : c ≠ sep := fun hcc => h (hcc ▸ List.mem_cons_self c cs)
    have hcs : sep ∉ cs := fun hmem => h (List.mem_cons_of_mem c hmem)
    rw [splitOnChar, ih hcs]
    simp [hc]

theorem splitOnChar_append {sep : Char} {x rest : Str} (hx : sep ∉ x) :
    splitOnChar sep (x ++ sep :: rest) = x :: splitOnChar sep rest := by
  induction x with
  | nil =>
    rw [List.nil_append, splitOnChar]
    cases h : splitOnChar sep rest with
    | nil => exact absurd h (splitOnChar_ne_nil sep rest)
    | cons r rs => simp
  | cons c t ih =>
    have hc : c ≠ sep := fun hcc => hx (hcc ▸ List.mem_cons_self c t)
    have ht : sep ∉ t := fun hmem => hx (List.mem_cons_of_mem c hmem)
    rw [List.cons_append, splitOnChar, ih ht]
    simp [hc]

theorem splitOnChar_joinSep {sep : Char} :
    ∀ {xs : List Str}, (∀ x ∈ xs, sep ∉ x) → xs ≠ [] →
      splitOnChar sep (joinSep sep xs) = xs := by
  intro xs
  induction xs with
  | nil => intro _ h; exact absurd rfl h
  | cons x t ih =>
    intro hmem _
    cases t with
    | nil =>
      rw [joinSep]
      exact splitOnChar_of_not_mem (hmem x (List.mem_cons_self x []))
    | cons y ys =>
      rw [joinSep, splitOnChar_append (hmem x (List.mem_cons_self x (y :: ys)))]
      rw [ih (fun z hz => hmem z (List.mem_cons_of_mem x hz)) (by simp)]

theorem mem_joinSep {c sep : Char} :
    ∀ {xs : List Str}, c ∈ joinSep sep xs → c = sep ∨ ∃ x ∈ xs, c ∈ x := by
  intro xs
  induction xs with
  | nil => intro h; exact absurd h (List.not_mem_nil c)
  | cons x t ih =>
    intro h
    cases t with
    | nil =>
      rw [joinSep] at h
      exact Or.inr ⟨x, List.mem_cons_self x [], h⟩
    | cons y ys =>
      rw [joinSep] at h
      rcases List.mem_append.1 h with h' | h'
      · exact Or.inr ⟨x, List.mem_cons_self x (y :: ys), h'⟩
      · rcases List.mem_cons.1 h' with rfl | h''
        · exact Or.inl rfl
        · rcases ih h'' with hl | ⟨z, hz, hcz⟩
          · exact Or.inl hl
          · exact Or.inr ⟨z, List.mem_cons_of_mem x hz, hcz⟩

/-! ### C5: quoting and unquoting -/

theorem dropLeadingQuote_quote (s : Str) :
    dropLeadingQuote (quoteChar :: s) = s := by
  simp [dropLeadingQuote]

theorem dropTrailingQuote_quote (s : Str) :
    dropTrailingQuote (s ++ [quoteChar]) = s := by
  rw [dropTrailingQuote, if_pos (by rw [List.getLast?_concat]), List.dropLast_concat]

theorem cleanCell_quoteField (s : Str) :
    cleanCell (quoteField s) = collapseQuotes s := by
  rw [cleanCell, quoteField]
  rw [trimChars_eq_self (by intro c hc; injection hc with hc'; subst hc'; decide)
    (by
      intro c hc
      rw [show quoteChar :: s ++ [quoteChar] = (quoteChar :: s) ++ [quoteChar] from rfl,
        List.getLast?_concat] at hc
      injection hc with hc'
      subst hc'
      decide)]
  rw [List.cons_append, dropLeadingQuote_quote, dropTrailingQuote_quote]

theorem hasDoubleQuote_false_of_not_mem :
    ∀ {s : Str}, quoteChar ∉ s → hasDoubleQuote s = false := by
  intro s
  induction s with
  | nil => intro _; rfl
  | cons c t ih =>
    intro h
    have hc : c ≠ quoteChar := fun hcc => h (hcc ▸ List.mem_cons_self c t)
    have ht : quoteChar ∉ t := fun hmem => h (List.mem_cons_of_mem c hmem)
    cases t with
    | nil => rfl
    | cons c2 t2 =>
      rw [hasDoubleQuote, if_neg (by rintro ⟨h1, _⟩; exact hc h1)]
      exact ih ht

theorem collapseQuotes_eq_self_aux :
    ∀ (n : Nat) (s : Str), s.length ≤ n → hasDoubleQuote s = false →
      collapseQuotes s = s := by
  intro n
  induction n with
  | zero =>
    intro s hs _
    cases s with
    | nil => rfl
    | cons c t => simp at hs
  | succ n ih =>
    intro s hs h
    match s with
    | [] => rfl
    | [c] => rfl
    | c1 :: c2 :: rest =>
      rw [hasDoubleQuote] at h
      rw [collapseQuotes]
      by_cases hq : c1 = quoteChar ∧ c2 = quoteChar
      · rw [if_pos hq] at h
        exact Bool.noConfusion h
      · rw [if_neg hq] at h
        rw [if_neg hq]
        have : (c2 :: rest).length ≤ n := by
          simp only [List.length_cons] at hs ⊢
          omega
        rw [ih (c2 :: rest) this h]

theorem collapseQuotes_eq_self {s : Str} (h : hasDoubleQuote s = false) :
    collapseQuotes s = s :=
  collapseQuotes_eq_self_aux s.length s le_rfl h

theorem doubleQuotes_eq_nil {s : Str} : doubleQuotes s = [] ↔ s = [] := by
  cases s with
  | nil => simp [doubleQuotes]
  | cons c t =>
    simp only [doubleQuotes, List.flatMap_cons]
    constructor
    · intro h
      by_cases hc : c = quoteChar
      · rw [if_pos hc] at h; exact List.noConfusion (List.append_eq_nil.1 h).1
      · rw [if_neg hc] at h; exact List.noConfusion (List.append_eq_nil.1 h).1
    · intro h; exact List.noConfusion h

theorem mem_doubleQuotes {c : Char} {s : Str} : c ∈ doubleQuotes s ↔ c ∈ s := by
  simp only [doubleQuotes, List.mem_flatMap]
  constructor
  · rintro ⟨a, ha, hc⟩
    by_cases haq : a = quoteChar
    · rw [if_pos haq] at hc
      rcases List.mem_cons.1 hc with rfl | hc'
      · exact haq ▸ ha
      · rcases List.mem_singleton.1 hc' with rfl
        exact haq ▸ ha
    · rw [if_neg haq] at hc
      rcases List.mem_singleton.1 hc with rfl
      exact ha
  · intro h
    refine ⟨c, h, ?_⟩
    by_cases hcq : c = quoteChar
    · rw [if_pos hcq, hcq]; exact List.mem_cons_self _ _
    · rw [if_neg hcq]; exact List.mem_singleton.2 rfl

theorem collapseQuotes_doubleQuotes_append :
    ∀ (s rest : Str), collapseQuotes (doubleQuotes s ++ rest) = s ++ collapseQuotes rest := by
  intro s
  induction s with
  | nil => intro rest; simp [doubleQuotes]
  | cons c t ih =>
    intro rest
    by_cases hc : c = quoteChar
    · subst hc
      rw [show doubleQuotes (quoteChar :: t) = quoteChar :: quoteChar :: doubleQuotes t by
        simp [doubleQuotes]]
      rw [List.cons_append, List.cons_append, collapseQuotes, if_pos ⟨rfl, rfl⟩, ih rest]
      rfl
    · rw [show doubleQuotes (c :: t) = c :: doubleQuotes t by simp [doubleQuotes, hc]]
      rw [List.cons_append]
      cases hshape : doubleQuotes t ++ rest with
      | nil =>
        rcases List.append_eq_nil.1 hshape with ⟨ht, hrest⟩
        rw [doubleQuotes_eq_nil.1 ht] at *
        subst hrest
        rfl
      | cons d ds =>
        rw [collapseQuotes, if_neg (by rintro ⟨h1, _⟩; exact hc h1), ← hshape, ih rest]
        rw [List.cons_append]

theorem collapseQuotes_doubleQuotes (s : Str) :
    collapseQuotes (doubleQuotes s) = s := by
  have h := collapseQuotes_doubleQuotes_append s []
  rw [List.append_nil, show collapseQuotes ([] : Str) = [] from rfl,
    List.append_nil] at h
  exact h

theorem cleanCell_intToStr (i : Int) : cleanCell (intToStr i) = intToStr i := by
  have hq : quoteChar ∉ intToStr i := not_mem_intToStr (by decide) (by decide)
  rw [cleanCell, trimChars_intToStr]
  have hhead : dropLeadingQuote (intToStr i) = intToStr i := by
    cases h : intToStr i with
    | nil => rfl
    | cons c rest =>
      have hcq : c ≠ quoteChar := fun hcc => by
        rw [h, hcc] at hq
        exact hq (List.mem_cons_self _ _)
      simp [dropLeadingQuote, hcq]
  rw [hhead]
  have hlast : dropTrailingQuote (intToStr i) = intToStr i := by
    have hcond : ¬((intToStr i).getLast? = some quoteChar) := by
      intro hql
      exact hq (List.mem_of_getLast?_eq_some hql)
    rw [dropTrailingQuote, if_neg hcond]
  rw [hlast]
  exact collapseQuotes_eq_self (hasDoubleQuote_false_of_not_mem hq)

/-! ### C5: the export row and its re-parse -/

theorem not_mem_quoteField {c : Char} {s : Str} (hcq : c ≠ quoteChar)
    (hs : c ∉ s) : c ∉ quoteField s := by
  rw [quoteField]
  intro h
  rcases List.mem_append.1 h with h' | h'
  · rcases List.mem_cons.1 h' with rfl | h''
    · exact hcq rfl
    · exact hs h''
  · rcases List.mem_singleton.1 h' with rfl
    exact hcq rfl

theorem comma_not_mem_cells {p : Product} (hclean : cleanForCSV p) :
    ∀ x ∈ [quoteField p.sku, quoteField p.name, quoteField p.category,
      intToStr p.quantity, intToStr p.minThreshold, intToStr p.purchasePrice,
      intToStr p.sellingPrice, quoteField p.boxNumber,
      quoteField (doubleQuotes p.description)], ',' ∉ x := by
  obtain ⟨hs1, _, _, hn1, _, _, hc1, _, _, hb1, _, _, hd1, _⟩ := hclean
  intro x hx
  simp only [List.mem_cons, List.not_mem_nil, or_false] at hx
  rcases hx with rfl | rfl | rfl | rfl | rfl | rfl | rfl | rfl | rfl
  · exact not_mem_quoteField (by decide) hs1
  · exact not_mem_quoteField (by decide) hn1
  · exact not_mem_quoteField (by decide) hc1
  · exact not_mem_intToStr (by decide) (by decide)
  · exact not_mem_intToStr (by decide) (by decide)
  · exact not_mem_intToStr (by decide) (by decide)
  · exact not_mem_intToStr (by decide) (by decide)
  · exact not_mem_quoteField (by decide) hb1
  · exact not_mem_quoteField (by decide) (fun hm => hd1 (mem_doubleQuotes.1 hm))

theorem newline_not_mem_productRow (p : Product) (hclean : cleanForCSV p) :
    '\n' ∉ productRow p := by
  obtain ⟨_, hs2, _, _, hn2, _, _, hc2, _, _, hb2, _, _, hd2⟩ := hclean
  intro h
  rcases mem_joinSep h with h' | ⟨x, hx, hcx⟩
  · exact absurd h' (by decide)
  · simp only [List.mem_cons, List.not_mem_nil, or_false] at hx
    rcases hx with rfl | rfl | rfl | rfl | rfl | rfl | rfl | rfl | rfl
    · exact not_mem_quoteField (by decide) hs2 hcx
    · exact not_mem_quoteField (by decide) hn2 hcx
    · exact not_mem_quoteField (by decide) hc2 hcx
    · exact not_mem_intToStr (by decide) (by decide) hcx
    · exact not_mem_intToStr (by decide) (by decide) hcx
    · exact not_mem_intToStr (by decide) (by decide) hcx
    · exact not_mem_intToStr (by decide) (by decide) hcx
    · exact not_mem_quoteField (by decide) hb2 hcx
    · exact not_mem_quoteField (by decide) (fun hm => hd2 (mem_doubleQuotes.1 hm)) hcx

theorem splitOnChar_productRow (p : Product) (hclean : cleanForCSV p) :
    splitOnChar ',' (productRow p)
      = [quoteField p.sku, quoteField p.name, quoteField p.category,
         intToStr p.quantity, intToStr p.minThreshold, intToStr p.purchasePrice,
         intToStr p.sellingPrice, quoteField p.boxNumber,
         quoteField (doubleQuotes p.description)] := by
  rw [productRow]
  exact splitOnChar_joinSep (comma_not_mem_cells hclean) (by simp)

theorem map_cleanCell_productRow (p : Product) (hclean : cleanForCSV p) :
    (splitOnChar ',' (productRow p)).map cleanCell
      = [p.sku, p.name, p.category, intToStr p.quantity, intToStr p.minThreshold,
         intToStr p.purchasePrice, intToStr p.sellingPrice, p.boxNumber,
         p.description] := by
  have hcopy := hclean
  obtain ⟨_, _, hs3, _, _, hn3, _, _, hc3, _, _, hb3, _, _⟩ := hcopy
  rw [splitOnChar_productRow p hclean]
  simp only [List.map_cons, List.map_nil]
  rw [cleanCell_quoteField, cleanCell_quoteField, cleanCell_quoteField,
    cleanCell_intToStr, cleanCell_intToStr, cleanCell_intToStr, cleanCell_intToStr,
    cleanCell_quoteField, cleanCell_quoteField]
  rw [collapseQuotes_eq_self hs3, collapseQuotes_eq_self hn3,
    collapseQuotes_eq_self hc3, collapseQuotes_eq_self hb3,
    collapseQuotes_doubleQuotes]

theorem parseCSVRow_productRow (fid : Str) (now : Int) (p : Product)
    (hclean : cleanForCSV p) :
    parseCSVRow fid now [] (productRow p) = some
      { id := fid, sku := p.sku, name := p.name, category := p.category,
        quantity := p.quantity, minThreshold := p.minThreshold,
        purchasePrice := p.purchasePrice, sellingPrice := p.sellingPrice,
        boxNumber := p.boxNumber, description := p.description,
        lastUpdated := now } := by
  have htrim : trimChars (productRow p) ≠ [] := by
    apply trimChars_ne_nil (c := quoteChar) ?_ (by decide)
    rw [productRow, joinSep]
    apply List.mem_append_left
    exact List.mem_append_left _ (List.mem_cons_self _ _)
  simp only [parseCSVRow]
  rw [if_neg htrim, map_cleanCell_productRow p hclean]
  rw [if_neg (by simp)]
  show some
      ({ id := fid, sku := p.sku, name := p.name, category := p.category,
         quantity := jsParseIntD (intToStr p.quantity),
         minThreshold := jsParseIntD (intToStr p.minThreshold),
         purchasePrice := jsParseIntD (intToStr p.purchasePrice),
         sellingPrice := jsParseIntD (intToStr p.sellingPrice),
         boxNumber := p.boxNumber, description := p.description,
         lastUpdated := now } : Product)
    = some
      ({ id := fid, sku := p.sku, name := p.name, category := p.category,
         quantity := p.quantity, minThreshold := p.minThreshold,
         purchasePrice := p.purchasePrice, sellingPrice := p.sellingPrice,
         boxNumber := p.boxNumber, description := p.description,
         lastUpdated := now } : Product)
  rw [jsParseIntD_intToStr, jsParseIntD_intToStr, jsParseIntD_intToStr,
    jsParseIntD_intToStr]

theorem parseCSVRows_productRow_map (freshIds : Nat → Str) (now : Int) :
    ∀ (ps : List Product) (i : Nat), (∀ p ∈ ps, cleanForCSV p) →
      (parseCSVRows freshIds now [] i (ps.map productRow)).map keyFields
        = ps.map keyFields := by
  intro ps
  induction ps with
  | nil => intro i _; rfl
  | cons p pt ih =>
    intro i h
    rw [List.map_cons, parseCSVRows,
      parseCSVRow_productRow (freshIds i) now p (h p (List.mem_cons_self p pt))]
    show (({ id := freshIds i, sku := p.sku, name := p.name,
             category := p.category, quantity := p.quantity,
             minThreshold := p.minThreshold, purchasePrice := p.purchasePrice,
             sellingPrice := p.sellingPrice, boxNumber := p.boxNumber,
             description := p.description, lastUpdated := now } : Product) ::
        parseCSVRows freshIds now [] (i + 1) (pt.map productRow)).map keyFields
      = (p :: pt).map keyFields
    rw [List.map_cons, List.map_cons,
      ih (i + 1) (fun q hq => h q (List.mem_cons_of_mem p hq))]
    rfl

/-! ### C5 -/

/-- C5 counterexample: a product whose name contains a comma breaks the
export/import round-trip — the naive comma split shifts every later column, so
even the SKU/name/category/quantity/threshold/price projection differs after
one round-trip through `exportToCSV` and `parseCSV` on an empty catalog. -/
theorem claim_C5_counterexample :
    (parseCSV (fun _ => "f".data) 0 ((exportToCSV [commaProduct]).getD []) []).map
        keyFields
      ≠ [commaProduct].map keyFields := by
  decide

/-- C5 (amended): exporting a non-empty product list and importing the file
against an empty catalog yields the same number of products with identical
SKU, name, category, quantity, minimum threshold, purchase price and selling
price, *provided* the exported string fields contain no comma or newline and
the quoted-but-unescaped fields contain no doubled quote (the original claim,
quantified over all products, is refuted by `claim_C5_counterexample`). -/
theorem claim_C5_amended (ps : List Product) (freshIds : Nat → Str) (now : Int)
    (hne : ps ≠ []) (hclean : ∀ p ∈ ps, cleanForCSV p) :
    (parseCSV freshIds now ((exportToCSV ps).getD []) []).map keyFields
      = ps.map keyFields
    ∧ (parseCSV freshIds now ((exportToCSV ps).getD []) []).length = ps.length := by
  have hexp : (exportToCSV ps).getD [] = joinSep '\n' (csvHeader :: ps.map productRow) := by
    rw [exportToCSV, if_neg (by simpa using hne)]
    rfl
  have hlines : splitOnChar '\n' (joinSep '\n' (csvHeader :: ps.map productRow))
      = csvHeader :: ps.map productRow := by
    apply splitOnChar_joinSep _ (by simp)
    intro x hx
    rcases List.mem_cons.1 hx with rfl | hx'
    · decide
    · rcases List.mem_map.1 hx' with ⟨p, hp, rfl⟩
      exact newline_not_mem_productRow p (hclean p hp)
  have hmain : (parseCSV freshIds now ((exportToCSV ps).getD []) []).map keyFields
      = ps.map keyFields := by
    rw [parseCSV, hexp, hlines,
      show (csvHeader :: ps.map productRow).drop 1 = ps.map productRow from rfl]
    exact parseCSVRows_productRow_map freshIds now ps 1 hclean
  refine ⟨hmain, ?_⟩
  have hlen := congrArg List.length hmain
  rwa [List.length_map, List.length_map] at hlen

/-- C5 amended witness: round-tripping the one-product catalog
`[sampleProduct]` (clean string fields) through export and import. -/
theorem claim_C5_amended_witness :
    (parseCSV (fun _ => "f".data) 0 ((exportToCSV [sampleProduct]).getD []) []).map
        keyFields
      = [sampleProduct].map keyFields
    ∧ (parseCSV (fun _ => "f".data) 0 ((exportToCSV [sampleProduct]).getD []) []).length
      = [sampleProduct].length :=
  claim_C5_amended [sampleProduct] (fun _ => "f".data) 0 (by simp)
    (by
      intro p hp
      rw [List.mem_singleton] at hp
      subst hp
      unfold cleanForCSV
      decide)
